import Mathlib

/-!
Shallow embedding of the encrypted archive / chunk-storage core of
ghost-control-plane (`scripts/gcp_backup.py`, `scripts/gcp_backup_push.py`,
`scripts/gcp_storage.py`).

Files are modelled as association lists from path/name strings to byte
sequences (`Bytes := List Nat`).  External processes (gpg, tar, zstd, ssh,
rsync) are modelled by explicit outcome parameters or by abstract function
parameters (`hashFn`, `encryptF`, `decryptF`); the hash stands for
`hashlib.blake2b(..., digest_size=32).hexdigest()[:16]`.  Python exceptions
(`SystemExit`, `AttributeError`) are modelled as explicit result values, and
the filesystem state at the moment an exception escapes is returned
alongside.
-/

namespace GCP

abbrev Bytes := List Nat

/-- Directory contents: an association list from file name to byte content.
`aGet` returns the content stored at a name, if any. -/
def aGet {β : Type} : List (String × β) → String → Option β
  | [], _ => none
  | (k, v) :: rest, p => if k = p then some v else aGet rest p

/-- Write (create or overwrite) the file named `p` with content `v`. -/
def aSet {β : Type} (m : List (String × β)) (p : String) (v : β) : List (String × β) :=
  (p, v) :: m.filter (fun e => !(decide (e.1 = p)))

/-- Delete the file named `p` if present. -/
def aDel {β : Type} (m : List (String × β)) (p : String) : List (String × β) :=
  m.filter (fun e => !(decide (e.1 = p)))

/-- Existence test, models `Path.exists()`. -/
def aHas {β : Type} (m : List (String × β)) (p : String) : Bool :=
  (aGet m p).isSome

/-! Python string primitives, modelled over the code-point list `String.data`
(Python compares strings lexicographically by code point). -/

/-- Lexicographic (code-point) order on character lists; models Python
string `<=` as used by `sorted()`. -/
def lexLe : List Char → List Char → Bool
  | [], _ => true
  | _ :: _, [] => false
  | a :: as, b :: bs => if a < b then true else if b < a then false else lexLe as bs

/-- Python `a <= b` on strings. -/
def strLe (a b : String) : Bool := lexLe a.data b.data

/-- Insert into an already sorted list, keeping it sorted (ascending). -/
def insertSorted (a : String) : List String → List String
  | [] => [a]
  | b :: bs => if strLe a b then a :: b :: bs else b :: insertSorted a bs

/-- Python `sorted()` on a list of file names (ascending lexicographic;
on distinct names any correct sort agrees, so insertion sort is faithful). -/
def sortNames : List String → List String
  | [] => []
  | a :: as => insertSorted a (sortNames as)

/-- Models `dest.glob('*.tar.zst.gpg')` membership: the name ends with
`.tar.zst.gpg` (`pathlib.Path.glob` uses fnmatch semantics, so `*` also
matches names with a leading dot). -/
def isArtifactName (name : String) : Bool :=
  List.isSuffixOf ".tar.zst.gpg".data name.data

/-- Python truthiness of an optional string (`if env:`): `None` and the
empty string are falsy. -/
def pyTruthy : Option String → Bool
  | none => false
  | some s => decide (s ≠ "")

/-! ### scripts/gcp_backup.py -/

/-- `get_passphrase()` from `scripts/gcp_backup.py`.
`env` models `os.getenv('GCP_BACKUP_PASSPHRASE')` (`none` = unset),
`passFile` models the content of `~/.config/ghost-control-plane/backup-passphrase`
(`none` = the file does not exist).  `String.trim` models Python `.strip()`
on the file content. -/
def get_passphrase (env : Option String) (passFile : Option String) : Option String :=
  if pyTruthy env then env
  else
    match passFile with
    | some content => some content.trim
    | none => none

/-- `prune(dest, keep_last)` from `scripts/gcp_backup.py`, over the list of
file names in the destination directory.  `files = sorted(dest.glob('*.tar.zst.gpg'))`;
if `len(files) <= keep_last` return 0; otherwise unlink every file in
`files[:-keep_last]` (note: for `keep_last = 0` the Python slice `files[:-0]`
is `files[:0]`, the empty list).  Returns the remaining directory contents
and the removed count. -/
def prune (destNames : List String) (keepLast : Nat) : List String × Nat :=
  let files := sortNames (destNames.filter isArtifactName)
  if files.length ≤ keepLast then (destNames, 0)
  else
    let toRemove := if keepLast = 0 then [] else files.take (files.length - keepLast)
    (destNames.filter (fun n => !(decide (n ∈ toRemove))), toRemove.length)

/-- Observable state of one `create_backup` run: whether the temporary
intermediate `/tmp/gcp-backup-<ts>.tar.zst` exists on return, and whether
the output artifact was written. -/
structure CBState where
  tmpExists : Bool
  outWritten : Bool
deriving DecidableEq

/-- How `create_backup` returned. -/
inductive CBOutcome where
  | dryRun
  | sysExit (msg : String)
  | completed
deriving DecidableEq

/-- `create_backup(cfg, apply)` from `scripts/gcp_backup.py`, with the
external process outcomes as parameters: `srcsNonempty` models
`existing_sources(cfg)` being non-empty, `pwAvailable` models
`get_passphrase()` returning a secret after `ensure_passphrase()`,
`tarOk`/`zstdOk` the return codes of the `tar | zstd` pipeline, `tmpPartial`
whether zstd materialised the temp file before the pipeline failed (on
pipeline success the temp file certainly exists), `gpgOk` the gpg return
code.  The code unlinks the temp file (inside `try`) only after the
pipeline-failure check, i.e. on the gpg exit paths. -/
def create_backup (apply srcsNonempty pwAvailable tarOk zstdOk tmpPartial gpgOk : Bool) :
    CBState × CBOutcome :=
  if !srcsNonempty then ({ tmpExists := false, outWritten := false }, .sysExit "no valid sources to back up")
  else if !apply then ({ tmpExists := false, outWritten := false }, .dryRun)
  else if !pwAvailable then ({ tmpExists := false, outWritten := false }, .sysExit "no backup passphrase available")
  else
    let s1 : CBState := { tmpExists := (tarOk && zstdOk) || tmpPartial, outWritten := false }
    if !(tarOk && zstdOk) then (s1, .sysExit "tar/zstd failed")
    else
      let s2 : CBState := { s1 with outWritten := gpgOk }
      let s3 : CBState := { s2 with tmpExists := false }
      if !gpgOk then (s3, .sysExit "gpg encrypt failed")
      else (s3, .completed)

/-! ### scripts/gcp_backup_push.py -/

/-- The exact rsync invocation built by `push` in `scripts/gcp_backup_push.py`. -/
def rsync_cmd (key src user host remoteDir : String) : List String :=
  ["rsync", "-az", "--delete", "--info=stats2,progress2",
   "-e", "ssh -i " ++ key ++ " -o BatchMode=yes -o ConnectTimeout=8",
   src ++ "/", user ++ "@" ++ host ++ ":" ++ remoteDir ++ "/"]

/-- Remote target state: whether the remote directory exists, and the files
in it. -/
structure Remote where
  dirExists : Bool
  files : List (String × Bytes)
deriving DecidableEq

/-- How `push` returned. -/
inductive PushOutcome where
  | sysExit (msg : String)
  | dryRun
  | ok
deriving DecidableEq

/-- Effect of a completed `rsync -az ... src/ target/` transfer on the
target file set: local files are copied over; with `--delete` among the
flags, files present on the target but absent locally are deleted (target
becomes exactly the local set), otherwise they are kept. -/
def rsyncApply (deleteExtraneous : Bool) (localFiles remoteFiles : List (String × Bytes)) :
    List (String × Bytes) :=
  if deleteExtraneous then localFiles
  else localFiles ++ remoteFiles.filter (fun r => !(localFiles.any (fun l => decide (l.1 = r.1))))

/-- `push(host, user, key, remote_dir, apply)` from `scripts/gcp_backup_push.py`.
`localDirExists` models `src.exists()`, `sshOk` the return code of the
`ssh ... "mkdir -p remote_dir"` preflight (which, when it succeeds, creates
the remote directory), `rsyncOk` the rsync return code, `partialRemote` the
unspecified remote file set left behind by a failed transfer.  The deletion
behaviour of the transfer is exactly whether `--delete` occurs in the
constructed `rsync_cmd`. -/
def push (key srcDir user host remoteDir : String) (apply : Bool)
    (localDirExists sshOk rsyncOk : Bool)
    (localFiles partialRemote : List (String × Bytes)) (remote : Remote) :
    Remote × PushOutcome :=
  if !localDirExists then (remote, .sysExit "local backup dir missing")
  else if !sshOk then (remote, .sysExit "remote mkdir failed")
  else
    let remote1 : Remote := { remote with dirExists := true }
    if !apply then (remote1, .dryRun)
    else if !rsyncOk then ({ remote1 with files := partialRemote }, .sysExit "rsync failed")
    else
      ({ remote1 with
          files := rsyncApply ((rsync_cmd key srcDir user host remoteDir).contains "--delete")
            localFiles remote1.files }, .ok)

/-! ### scripts/gcp_storage.py -/

/-- `CHUNK_SIZE = 4 * 1024 * 1024` (4 MiB). -/
def CHUNK_SIZE : Nat := 4 * 1024 * 1024

/-- One chunk descriptor produced by `split_file`: `{'num': .., 'hash': .., 'size': ..}`. -/
structure ChunkInfo where
  num : Nat
  hash : String
  size : Nat
deriving DecidableEq

/-- Recursive worker for `split_file`: read `chunkSize` bytes at a time,
hash each window; stops on an empty read (also immediately when
`chunkSize = 0`, since Python `f.read(0)` returns `b''`). -/
def splitChunks (hashFn : Bytes → String) (chunkSize : Nat) (data : Bytes) (num : Nat) :
    List ChunkInfo :=
  if h1 : chunkSize = 0 then []
  else if h2 : data = [] then []
  else
    { num := num, hash := hashFn (data.take chunkSize), size := (data.take chunkSize).length } ::
      splitChunks hashFn chunkSize (data.drop chunkSize) (num + 1)
termination_by data.length
decreasing_by
  simp only [List.length_drop]
  have hd : data.length ≠ 0 := by
    intro hh
    exact h2 (List.length_eq_zero.mp hh)
  omega

/-- `split_file(file_path, chunk_size)` from `scripts/gcp_storage.py`,
over the file content `data`.  It only computes descriptors; it writes
nothing. -/
def split_file (hashFn : Bytes → String) (data : Bytes) (chunkSize : Nat) : List ChunkInfo :=
  splitChunks hashFn chunkSize data 0

/-- The state of the storage engine: files in `DIST_DIR` (keyed by file
name), files in `CHUNKS_DIR` (the chunk repository), files in
`METADATA_DIR`, and all other filesystem paths (inputs, outputs, temp
files), keyed by full path. -/
structure Store where
  dist : List (String × Bytes)
  chunks : List (String × Bytes)
  metadata : List (String × Bytes)
  extFiles : List (String × Bytes)
deriving DecidableEq

/-- A Python exception escaping a call. -/
inductive PyErr where
  | attributeError (msg : String)
deriving DecidableEq

/-- Result of `store_file`: a normal return (`None` or the file hash), or
an uncaught exception. -/
inductive StoreResult where
  | ret (r : Option String)
  | raised (e : PyErr)
deriving DecidableEq

/-- The name `encrypted.with_suffix(f'.chunk{i}')` resolves to inside
`DIST_DIR`: `Path.with_suffix` on `<hash>.gpg` replaces `.gpg`. -/
def chunkIntermediateName (fileHash : String) (i : Nat) : String :=
  fileHash ++ ".chunk" ++ toString i

/-- The chunk-store loop of `store_file`: for each descriptor, if the
intermediate file `<hash>.chunk{i}` exists in `DIST_DIR`, copy its bytes to
`CHUNKS_DIR/<chunk_hash>.chunk`. -/
def storeChunksLoop (fileHash : String) : Store → Nat → List ChunkInfo → Store
  | st, _, [] => st
  | st, i, c :: rest =>
    let st1 := match aGet st.dist (chunkIntermediateName fileHash i) with
      | some data => { st with chunks := aSet st.chunks (c.hash ++ ".chunk") data }
      | none => st
    storeChunksLoop fileHash st1 (i + 1) rest

/-- `if not passphrase: passphrase = secrets.token_hex(32)` — the
passphrase actually used by `store_file` (`genPass` models the generated
token). -/
def resolvedPass (passOpt : Option String) (genPass : String) : String :=
  if pyTruthy passOpt then passOpt.getD genPass else genPass

/-- `store_file(file_path, name, passphrase)` from `scripts/gcp_storage.py`.
`hashFn` models the truncated blake2b digest, `encryptF` the
gpg symmetric encryption (`none` = non-zero gpg exit).  The `name`
argument only affects printed output before the exception and is omitted.
After storing chunks the function builds the metadata dict, whose
`'created'` entry evaluates `subprocess.datetime.now()`; the `subprocess`
module has no `datetime` attribute (the script never imports `datetime`),
so an `AttributeError` escapes before the metadata file is written and
before the hash is returned. -/
def store_file (hashFn : Bytes → String) (encryptF : Bytes → String → Option Bytes)
    (st : Store) (filePath : String) (passOpt : Option String) (genPass : String) :
    Store × StoreResult :=
  match aGet st.extFiles filePath with
  | none => (st, .ret none)
  | some content =>
    let fileHash := hashFn content
    match encryptF content (resolvedPass passOpt genPass) with
    | none => (st, .ret none)
    | some encBytes =>
      let st1 : Store := { st with dist := aSet st.dist (fileHash ++ ".gpg") encBytes }
      let chunks := split_file hashFn encBytes CHUNK_SIZE
      let st2 := storeChunksLoop fileHash st1 0 chunks
      (st2, .raised (.attributeError "module subprocess has no attribute datetime"))

/-- `retrieve_file(file_hash, output_path, passphrase)` from
`scripts/gcp_storage.py`.  `decryptF` models gpg decryption (`none` =
failure, e.g. wrong passphrase); `tempName` models the fresh path returned
by `tempfile.NamedTemporaryFile(delete=False)` (created empty, then gpg
writes it, then `shutil.move` renames it onto `outputPath`).  The parsed
metadata JSON is never used by the code, so parsing is not modelled. -/
def retrieve_file (decryptF : Bytes → String → Option Bytes)
    (st : Store) (fileHash outputPath tempName pass : String) : Store × Bool :=
  if !(aHas st.metadata (fileHash ++ ".json")) then (st, false)
  else
    match aGet st.dist (fileHash ++ ".gpg") with
    | none => (st, false)
    | some encBytes =>
      let st1 : Store := { st with extFiles := aSet st.extFiles tempName [] }
      match decryptF encBytes pass with
      | none => (st1, false)
      | some plain =>
        let st2 : Store := { st1 with extFiles := aSet st1.extFiles tempName plain }
        let st3 : Store :=
          { st2 with extFiles := aSet (aDel st2.extFiles tempName) outputPath plain }
        (st3, true)

/-! ### Helper lemmas -/

theorem aGet_aSet_same {β : Type} (m : List (String × β)) (p : String) (v : β) :
    aGet (aSet m p v) p = some v := by
  simp [aSet, aGet]

theorem aGet_filter_ne {β : Type} (m : List (String × β)) (p q : String) (h : q ≠ p) :
    aGet (m.filter (fun e => !(decide (e.1 = p)))) q = aGet m q := by
  induction m with
  | nil => rfl
  | cons e rest ih =>
    by_cases he : e.1 = p
    · have hcond : (!decide (e.1 = p)) = false := by simp [he]
      have hq : ¬ (e.1 = q) := by
        rw [he]
        exact fun hh => h hh.symm
      simp only [List.filter_cons, hcond, Bool.false_eq_true, if_false]
      rw [ih]
      simp [aGet, hq]
    · have hcond : (!decide (e.1 = p)) = true := by simp [he]
      simp only [List.filter_cons, hcond, if_true]
      by_cases hq : e.1 = q
      · simp [aGet, hq]
      · simp [aGet, hq, ih]

theorem aGet_aSet_other {β : Type} (m : List (String × β)) (p q : String) (v : β)
    (h : q ≠ p) : aGet (aSet m p v) q = aGet m q := by
  simp only [aSet, aGet]
  rw [if_neg (fun hh => h hh.symm)]
  exact aGet_filter_ne m p q h

theorem aGet_aDel_other {β : Type} (m : List (String × β)) (p q : String)
    (h : q ≠ p) : aGet (aDel m p) q = aGet m q :=
  aGet_filter_ne m p q h

theorem insertSorted_perm (a : String) (l : List String) :
    (insertSorted a l).Perm (a :: l) := by
  induction l with
  | nil => exact List.Perm.refl _
  | cons b bs ih =>
    by_cases h : strLe a b = true
    · simp [insertSorted, h]
    · simp only [insertSorted, h, if_neg]
      exact (ih.cons b).trans (List.Perm.swap a b bs)

theorem sortNames_perm (l : List String) : (sortNames l).Perm l := by
  induction l with
  | nil => exact List.Perm.refl _
  | cons a as ih =>
    exact (insertSorted_perm a (sortNames as)).trans (ih.cons a)

/-! ### Claim theorems -/

/-- C7: passphrase resolution precedence.  With a non-empty runtime
override set, `get_passphrase` returns the override no matter what the
persisted file holds; with no effective override and the file present it
returns the file content (Python `.strip()` applied, modelled by
`String.trim`); with neither present it returns no secret. -/
theorem get_passphrase_precedence (v c : String) (hv : v ≠ "") :
    (∀ passFile, get_passphrase (some v) passFile = some v) ∧
    get_passphrase none (some c) = some c.trim ∧
    get_passphrase (some "") (some c) = some c.trim ∧
    get_passphrase none none = none ∧
    get_passphrase (some "") none = none := by
  refine ⟨fun passFile => ?_, ?_, ?_, ?_, ?_⟩ <;> simp [get_passphrase, pyTruthy, hv]

/-- C7 witness: the precedence theorem at the concrete override `"secret"`
and file content `"filepass"`. -/
theorem get_passphrase_precedence_witness :
    (∀ passFile, get_passphrase (some "secret") passFile = some "secret") ∧
    get_passphrase none (some "filepass") = some "filepass".trim ∧
    get_passphrase (some "") (some "filepass") = some "filepass".trim ∧
    get_passphrase none none = none ∧
    get_passphrase (some "") none = none :=
  get_passphrase_precedence "secret" "filepass" (by decide)

/-- C8: an environment override set to the empty string is treated exactly
like an absent override (`if env:` is false on `''`): `get_passphrase`
falls through to the persisted file, or to no secret. -/
theorem empty_override_falls_through (passFile : Option String) :
    get_passphrase (some "") passFile = get_passphrase none passFile := by
  rfl

/-- C5 counterexample: with apply mode on, sources and passphrase
available, `tar` failing (`tarOk = false`) while zstd has already
materialised the temporary intermediate file (`tmpPartial = true`),
`create_backup` raises `SystemExit` with the temp file still existing —
the temp file is not deleted on this failure exit path. -/
theorem create_backup_tmp_counterexample :
    (create_backup true true true false true true true).2 = .sysExit "tar/zstd failed" ∧
    ¬ ((create_backup true true true false true true true).1.tmpExists = false) := by
  decide

/-- C5 amended: the temporary intermediate file is deleted on every exit
path of an apply-mode run except the pack/compress failure path: on
return, the temp file exists exactly when the run was in apply mode with
sources and a passphrase, the `tar | zstd` pipeline failed, and a partial
temp file had been materialised.  In particular both encrypt-stage exit
paths (gpg success and gpg failure) always delete it. -/
theorem create_backup_tmp_cleanup :
    ∀ apply srcsNonempty pwAvailable tarOk zstdOk tmpPartial gpgOk : Bool,
      (create_backup apply srcsNonempty pwAvailable tarOk zstdOk tmpPartial gpgOk).1.tmpExists =
        (apply && srcsNonempty && pwAvailable && !(tarOk && zstdOk) && tmpPartial) := by
  decide

/-- C3 counterexample: an apply-mode `push` run with no deletion opt-in
anywhere (the CLI has no such flag) deletes a file that is present on the
remote target but absent locally: with an empty local set, the remote file
`old.tar.zst.gpg` is gone after the run. -/
theorem push_delete_counterexample :
    aGet (push "k" "src" "u" "h" "rd" true true true true [] []
        { dirExists := true, files := [("old.tar.zst.gpg", [1])] }).1.files
        "old.tar.zst.gpg" = none ∧
    (push "k" "src" "u" "h" "rd" true true true true [] []
        { dirExists := true, files := [("old.tar.zst.gpg", [1])] }).2 = .ok := by
  decide

/-- C3 amended: `push` is unconditional mirror synchronisation, not
additive: the constructed rsync command always contains `--delete`, and
every successful apply run makes the remote file set exactly the local
set, deleting files present remotely but absent locally.  There is no
opt-in flag for deletion. -/
theorem push_always_mirrors_with_delete (key srcDir user host remoteDir : String)
    (localFiles partialRemote : List (String × Bytes)) (remote : Remote) :
    (rsync_cmd key srcDir user host remoteDir).contains "--delete" = true ∧
    push key srcDir user host remoteDir true true true true localFiles partialRemote remote =
      ({ dirExists := true, files := localFiles }, .ok) := by
  constructor
  · rfl
  · rfl

/-- C4 counterexample: a dry run (`apply = false`) with the remote
directory initially missing still creates it, because the
`ssh ... "mkdir -p remote_dir"` preflight runs before the dry-run check:
remote state is modified by the dry run. -/
theorem push_dry_run_mkdir_counterexample :
    (push "k" "src" "u" "h" "rd" false true true true [] []
        { dirExists := false, files := [] }).1.dirExists = true ∧
    (push "k" "src" "u" "h" "rd" false true true true [] []
        { dirExists := false, files := [] }).2 = .dryRun := by
  decide

/-- C4 amended: a dry run never transfers anything — the remote file set
is unchanged and the outcome is the dry-run report (or a `SystemExit`
before it) — but the `ssh mkdir -p` preflight still runs first, so the
only possible remote modification is creation of the target directory. -/
theorem push_dry_run_no_transfer (key srcDir user host remoteDir : String)
    (localDirExists sshOk rsyncOk : Bool)
    (localFiles partialRemote : List (String × Bytes)) (remote : Remote) :
    (push key srcDir user host remoteDir false localDirExists sshOk rsyncOk
        localFiles partialRemote remote).1.files = remote.files ∧
    ((push key srcDir user host remoteDir false localDirExists sshOk rsyncOk
        localFiles partialRemote remote).2 = .dryRun ∨
      (push key srcDir user host remoteDir false localDirExists sshOk rsyncOk
        localFiles partialRemote remote).2 = .sysExit "local backup dir missing" ∨
      (push key srcDir user host remoteDir false localDirExists sshOk rsyncOk
        localFiles partialRemote remote).2 = .sysExit "remote mkdir failed") := by
  cases localDirExists <;> cases sshOk <;> simp [push]

/-- C9: `prune` only ever removes names matching the artifact pattern
`*.tar.zst.gpg`: the non-artifact files of the destination directory are
exactly preserved (same files, same listing), for every `keepLast`. -/
theorem prune_preserves_non_artifacts (destNames : List String) (keepLast : Nat) :
    (prune destNames keepLast).1.filter (fun n => !(isArtifactName n)) =
      destNames.filter (fun n => !(isArtifactName n)) := by
  by_cases hg : (sortNames (destNames.filter isArtifactName)).length ≤ keepLast
  · simp [prune, hg]
  · simp only [prune, hg, if_false]
    have hsubset : ∀ n,
        n ∈ (if keepLast = 0 then []
          else (sortNames (destNames.filter isArtifactName)).take
            ((sortNames (destNames.filter isArtifactName)).length - keepLast)) →
        isArtifactName n = true := by
      intro n hn
      by_cases h0 : keepLast = 0
      · simp [h0] at hn
      · rw [if_neg h0] at hn
        have hfiles : n ∈ sortNames (destNames.filter isArtifactName) :=
          List.take_subset _ _ hn
        have hmem : n ∈ destNames.filter isArtifactName :=
          (sortNames_perm _).subset hfiles
        exact List.of_mem_filter hmem
    rw [List.filter_filter]
    apply List.filter_congr
    intro a _
    by_cases hart : isArtifactName a = true
    · simp [hart]
    · have hnr : a ∉ (if keepLast = 0 then []
          else (sortNames (destNames.filter isArtifactName)).take
            ((sortNames (destNames.filter isArtifactName)).length - keepLast)) :=
        fun hmem => hart (hsubset a hmem)
      simp [hart, hnr]

/-- C6 counterexample: the claim quantifies over every `keepLast >= 0`, but
at `keepLast = 0` the Python slice `files[:-0]` is empty, so `prune`
removes nothing: with one artifact present, one artifact remains (claim
says `min 0 1 = 0` remain) and the removed count is 0 (claim says
`1 - min 0 1 = 1`). -/
theorem prune_keep_zero_counterexample :
    ¬ ((((prune ["a.tar.zst.gpg"] 0).1.filter isArtifactName).length = min 0 1) ∧
        (prune ["a.tar.zst.gpg"] 0).2 = 1 - min 0 1) := by
  decide

/-- C6 amended: for every `keepLast = N >= 1` and duplicate-free directory
listing, after `prune` exactly `min(N, priorCount)` artifacts remain
(`priorCount` = number of artifact files before), they are exactly the
lexicographically-latest ones (the tail of the ascending sort), and the
removed count is `priorCount - min(N, priorCount)`; in particular when
`priorCount <= N` nothing is removed.  For `N = 0` the code removes
nothing (see the counterexample). -/
theorem prune_retention (destNames : List String) (keepLast : Nat)
    (hN : 1 ≤ keepLast) (hnd : destNames.Nodup) :
    ((prune destNames keepLast).1.filter isArtifactName).Perm
        ((sortNames (destNames.filter isArtifactName)).drop
          ((destNames.filter isArtifactName).length - keepLast)) ∧
    ((prune destNames keepLast).1.filter isArtifactName).length =
        min keepLast (destNames.filter isArtifactName).length ∧
    (prune destNames keepLast).2 =
        (destNames.filter isArtifactName).length -
          min keepLast (destNames.filter isArtifactName).length := by
  have hA : (sortNames (destNames.filter isArtifactName)).length =
      (destNames.filter isArtifactName).length := (sortNames_perm _).length_eq
  by_cases hg : (sortNames (destNames.filter isArtifactName)).length ≤ keepLast
  · have hle : (destNames.filter isArtifactName).length ≤ keepLast := by omega
    have hz : (destNames.filter isArtifactName).length - keepLast = 0 := by omega
    refine ⟨?_, ?_, ?_⟩
    · simp only [prune, hg, if_true, hz, List.drop_zero]
      exact (sortNames_perm _).symm
    · simp only [prune, hg, if_true]
      omega
    · simp only [prune, hg, if_true]
      omega
  · have hK0 : keepLast ≠ 0 := by omega
    set F := sortNames (destNames.filter isArtifactName) with hF
    set R := F.take (F.length - keepLast) with hR
    set K := F.drop (F.length - keepLast) with hK
    have hremain : (prune destNames keepLast).1 =
        destNames.filter (fun n => !(decide (n ∈ R))) := by
      simp only [prune]
      rw [← hF, if_neg hg, if_neg hK0, ← hR]
    have hcount : (prune destNames keepLast).2 = R.length := by
      simp only [prune]
      rw [← hF, if_neg hg, if_neg hK0, ← hR]
    have hFnd : F.Nodup := ((sortNames_perm _).nodup_iff).mpr (hnd.filter _)
    have hsplit : R ++ K = F := List.take_append_drop _ _
    have hdisj : R.Disjoint K := by
      apply List.disjoint_of_nodup_append
      rw [hsplit]
      exact hFnd
    have hperm : ((prune destNames keepLast).1.filter isArtifactName).Perm K := by
      rw [hremain, List.filter_filter]
      have step1 : destNames.filter (fun a => isArtifactName a && !(decide (a ∈ R))) =
          (destNames.filter isArtifactName).filter (fun a => !(decide (a ∈ R))) := by
        rw [List.filter_filter]
        apply List.filter_congr
        intro a _
        exact Bool.and_comm _ _
      rw [step1]
      have step2 := List.Perm.filter (fun a => !(decide (a ∈ R)))
          (sortNames_perm (destNames.filter isArtifactName)).symm
      refine step2.trans ?_
      have step3 : F.filter (fun a => !(decide (a ∈ R))) = K := by
        rw [← hsplit, List.filter_append]
        have hnil : R.filter (fun a => !(decide (a ∈ R))) = [] := by
          apply List.filter_eq_nil_iff.mpr
          intro a ha
          simp [ha]
        have hself : K.filter (fun a => !(decide (a ∈ R))) = K := by
          apply List.filter_eq_self.mpr
          intro a ha
          have hnotR : a ∉ R := fun hmem => hdisj hmem ha
          simp [hnotR]
        rw [hnil, hself, List.nil_append]
      rw [step3]
    refine ⟨?_, ?_, ?_⟩
    · rw [← hA, ← hK]
      exact hperm
    · have hlen := hperm.length_eq
      rw [hlen, hK, List.length_drop]
      omega
    · rw [hcount, hR, List.length_take]
      omega

/-- C6 witness: the retention theorem at the concrete directory listing
`["b.tar.zst.gpg", "a.tar.zst.gpg", "notes.txt"]` with `keepLast = 1`:
one artifact remains (the lexicographically-latest, `b.tar.zst.gpg`) and
one was removed. -/
theorem prune_retention_witness :
    ((prune ["b.tar.zst.gpg", "a.tar.zst.gpg", "notes.txt"] 1).1.filter isArtifactName).Perm
        ((sortNames ((["b.tar.zst.gpg", "a.tar.zst.gpg", "notes.txt"]).filter isArtifactName)).drop
          (((["b.tar.zst.gpg", "a.tar.zst.gpg", "notes.txt"]).filter isArtifactName).length - 1)) ∧
    ((prune ["b.tar.zst.gpg", "a.tar.zst.gpg", "notes.txt"] 1).1.filter isArtifactName).length =
        min 1 ((["b.tar.zst.gpg", "a.tar.zst.gpg", "notes.txt"]).filter isArtifactName).length ∧
    (prune ["b.tar.zst.gpg", "a.tar.zst.gpg", "notes.txt"] 1).2 =
        ((["b.tar.zst.gpg", "a.tar.zst.gpg", "notes.txt"]).filter isArtifactName).length -
          min 1 ((["b.tar.zst.gpg", "a.tar.zst.gpg", "notes.txt"]).filter isArtifactName).length :=
  prune_retention ["b.tar.zst.gpg", "a.tar.zst.gpg", "notes.txt"] 1 (by decide) (by decide)

theorem encName_ne_chunkIntermediateName (fileHash : String) (i : Nat) :
    fileHash ++ ".gpg" ≠ chunkIntermediateName fileHash i := by
  intro h
  have hl := congrArg String.length h
  simp only [chunkIntermediateName, String.length_append] at hl
  have h4 : (".gpg" : String).length = 4 := rfl
  have h6 : (".chunk" : String).length = 6 := rfl
  omega

theorem storeChunksLoop_noIntermediates (fileHash : String) (st : Store)
    (h : ∀ j, aGet st.dist (chunkIntermediateName fileHash j) = none) :
    ∀ cs i, storeChunksLoop fileHash st i cs = st := by
  intro cs
  induction cs with
  | nil =>
    intro i
    rfl
  | cons c rest ih =>
    intro i
    simp only [storeChunksLoop, h i]
    exact ih (i + 1)

theorem storeChunksLoop_metadata (fileHash : String) :
    ∀ cs st i, (storeChunksLoop fileHash st i cs).metadata = st.metadata := by
  intro cs
  induction cs with
  | nil =>
    intro st i
    rfl
  | cons c rest ih =>
    intro st i
    simp only [storeChunksLoop]
    cases hx : aGet st.dist (chunkIntermediateName fileHash i) with
    | none =>
      simp only [hx]
      exact ih st (i + 1)
    | some data =>
      simp only [hx]
      exact ih _ (i + 1)

/-- C1: refuted by the code.  `split_file` only computes chunk descriptors
and never writes the `.chunk{i}` intermediate files the chunk-store loop
looks for, so on any filesystem with no stray `<hash>.chunk{i}` entries in
`DIST_DIR` (nothing in the repository ever creates one), `store_file`
leaves the chunk repository directory completely unchanged: no chunk
bytes are ever persisted, under any name. -/
theorem store_file_chunk_repo_unchanged (hashFn : Bytes → String)
    (encryptF : Bytes → String → Option Bytes) (st : Store) (filePath : String)
    (passOpt : Option String) (genPass : String)
    (h : ∀ fh j, aGet st.dist (chunkIntermediateName fh j) = none) :
    (store_file hashFn encryptF st filePath passOpt genPass).1.chunks = st.chunks := by
  cases hext : aGet st.extFiles filePath with
  | none => simp only [store_file, hext]
  | some content =>
    cases henc : encryptF content (resolvedPass passOpt genPass) with
    | none => simp only [store_file, hext, henc]
    | some encBytes =>
      simp only [store_file, hext, henc]
      have h1 : ∀ j, aGet (aSet st.dist (hashFn content ++ ".gpg") encBytes)
          (chunkIntermediateName (hashFn content) j) = none := by
        intro j
        rw [aGet_aSet_other _ _ _ _
          (fun hh => encName_ne_chunkIntermediateName (hashFn content) j hh.symm)]
        exact h (hashFn content) j
      rw [storeChunksLoop_noIntermediates (hashFn content)
        { st with dist := aSet st.dist (hashFn content ++ ".gpg") encBytes } h1]

/-- C1 witness: storing a concrete two-byte file into an empty store
leaves the chunk repository empty. -/
theorem store_file_chunk_repo_unchanged_witness :
    (store_file (fun _ => "abcd") (fun b _ => some b)
        { dist := [], chunks := [], metadata := [], extFiles := [("/home/u/f.txt", [7, 7])] }
        "/home/u/f.txt" none "gen").1.chunks = ([] : List (String × Bytes)) :=
  store_file_chunk_repo_unchanged (fun _ => "abcd") (fun b _ => some b)
    { dist := [], chunks := [], metadata := [], extFiles := [("/home/u/f.txt", [7, 7])] }
    "/home/u/f.txt" none "gen" (fun _ _ => rfl)

/-- C2: refuted by the code.  On every input that passes encryption,
`store_file` evaluates `subprocess.datetime.now()` while building the
metadata dict; the `subprocess` module has no `datetime` attribute (the
script never imports `datetime`), so an `AttributeError` escapes: no
manifest record is persisted (the metadata directory is unchanged) and
the object hash is never returned. -/
theorem store_file_raises_attribute_error (hashFn : Bytes → String)
    (encryptF : Bytes → String → Option Bytes) (st : Store) (filePath : String)
    (passOpt : Option String) (genPass : String) (content encBytes : Bytes)
    (h1 : aGet st.extFiles filePath = some content)
    (h2 : encryptF content (resolvedPass passOpt genPass) = some encBytes) :
    (store_file hashFn encryptF st filePath passOpt genPass).2 =
        .raised (.attributeError "module subprocess has no attribute datetime") ∧
    (store_file hashFn encryptF st filePath passOpt genPass).1.metadata = st.metadata := by
  constructor
  · simp only [store_file, h1, h2]
  · simp only [store_file, h1, h2]
    rw [storeChunksLoop_metadata]

/-- C2 witness: storing a concrete two-byte file (present, encryption
succeeding) raises the `AttributeError` and persists no metadata. -/
theorem store_file_raises_attribute_error_witness :
    (store_file (fun _ => "beef") (fun b _ => some b)
        { dist := [], chunks := [], metadata := [], extFiles := [("/home/u/g.txt", [1, 2])] }
        "/home/u/g.txt" none "gen").2 =
      .raised (.attributeError "module subprocess has no attribute datetime") ∧
    (store_file (fun _ => "beef") (fun b _ => some b)
        { dist := [], chunks := [], metadata := [], extFiles := [("/home/u/g.txt", [1, 2])] }
        "/home/u/g.txt" none "gen").1.metadata = ([] : List (String × Bytes)) :=
  store_file_raises_attribute_error (fun _ => "beef") (fun b _ => some b)
    { dist := [], chunks := [], metadata := [], extFiles := [("/home/u/g.txt", [1, 2])] }
    "/home/u/g.txt" none "gen" [1, 2] [1, 2] (by decide) rfl

/-- C10: `retrieve_file` is atomic with respect to its output path.  With
the temp file name fresh (distinct from the output path, as
`NamedTemporaryFile` guarantees), on every `False` return — metadata
record missing, encrypted blob missing, or decryption failure — the
output path holds exactly what it held before; and a `True` return means
decryption succeeded and the output path now holds the decrypted bytes of
the stored encrypted blob. -/
theorem retrieve_file_output_atomic (decryptF : Bytes → String → Option Bytes)
    (st : Store) (fileHash outputPath tempName pass : String)
    (hfresh : tempName ≠ outputPath) :
    ((retrieve_file decryptF st fileHash outputPath tempName pass).2 = false →
      aGet (retrieve_file decryptF st fileHash outputPath tempName pass).1.extFiles outputPath =
        aGet st.extFiles outputPath) ∧
    ((retrieve_file decryptF st fileHash outputPath tempName pass).2 = true →
      ∃ encBytes plain, aGet st.dist (fileHash ++ ".gpg") = some encBytes ∧
        decryptF encBytes pass = some plain ∧
        aGet (retrieve_file decryptF st fileHash outputPath tempName pass).1.extFiles outputPath =
          some plain) := by
  cases hmeta : aHas st.metadata (fileHash ++ ".json") with
  | false =>
    simp only [retrieve_file, hmeta]
    exact ⟨fun _ => rfl, fun hc => by simp at hc⟩
  | true =>
    cases hdist : aGet st.dist (fileHash ++ ".gpg") with
    | none =>
      simp only [retrieve_file, hmeta, hdist]
      exact ⟨fun _ => rfl, fun hc => by simp at hc⟩
    | some encBytes =>
      cases hdec : decryptF encBytes pass with
      | none =>
        simp only [retrieve_file, hmeta, hdist, hdec]
        refine ⟨fun _ => ?_, fun hc => by simp at hc⟩
        exact aGet_aSet_other st.extFiles tempName outputPath [] (fun hh => hfresh hh.symm)
      | some plain =>
        simp only [retrieve_file, hmeta, hdist, hdec]
        refine ⟨fun hc => by simp at hc, fun _ => ?_⟩
        exact ⟨encBytes, plain, rfl, hdec, aGet_aSet_same _ outputPath plain⟩

/-- C10 witness: the atomicity theorem at a concrete store, with a stored
metadata record and encrypted blob, identity decryption and fresh temp
name: retrieval succeeds and the output path holds the decrypted bytes. -/
theorem retrieve_file_output_atomic_witness :
    ((retrieve_file (fun b _ => some b)
        { dist := [("h1.gpg", [5, 6])], chunks := [], metadata := [("h1.json", [0])],
          extFiles := [("/out/prev", [9])] } "h1" "/out/file" "/tmp/t1" "pw").2 = false →
      aGet (retrieve_file (fun b _ => some b)
        { dist := [("h1.gpg", [5, 6])], chunks := [], metadata := [("h1.json", [0])],
          extFiles := [("/out/prev", [9])] } "h1" "/out/file" "/tmp/t1" "pw").1.extFiles
        "/out/file" =
      aGet (Store.extFiles
        { dist := [("h1.gpg", [5, 6])], chunks := [], metadata := [("h1.json", [0])],
          extFiles := [("/out/prev", [9])] }) "/out/file") ∧
    ((retrieve_file (fun b _ => some b)
        { dist := [("h1.gpg", [5, 6])], chunks := [], metadata := [("h1.json", [0])],
          extFiles := [("/out/prev", [9])] } "h1" "/out/file" "/tmp/t1" "pw").2 = true →
      ∃ encBytes plain, aGet (Store.dist
        { dist := [("h1.gpg", [5, 6])], chunks := [], metadata := [("h1.json", [0])],
          extFiles := [("/out/prev", [9])] }) ("h1" ++ ".gpg") = some encBytes ∧
        (fun b _ => some b : Bytes → String → Option Bytes) encBytes "pw" = some plain ∧
        aGet (retrieve_file (fun b _ => some b)
          { dist := [("h1.gpg", [5, 6])], chunks := [], metadata := [("h1.json", [0])],
            extFiles := [("/out/prev", [9])] } "h1" "/out/file" "/tmp/t1" "pw").1.extFiles
          "/out/file" = some plain) :=
  retrieve_file_output_atomic (fun b _ => some b)
    { dist := [("h1.gpg", [5, 6])], chunks := [], metadata := [("h1.json", [0])],
      extFiles := [("/out/prev", [9])] } "h1" "/out/file" "/tmp/t1" "pw" (by decide)

end GCP
